import Mathlib

/-!
Verification development for the Irrigation Scheduling repository.

The file embeds, in Lean 4, the parts of the program that the verified
properties talk about:

* the `Field` model methods shown in the repository's model documentation
  (`crop_days`, `update_soil_moisture`, `get_ai_model_input`), translated
  directly from the Python source quoted there;
* the Schedule Lifecycle Manager, Prediction Adapter, Priority Classifier
  and Analytics Aggregator, whose backend source is not part of the
  repository snapshot: those are modelled from the specification's own
  wording (each such definition carries a doc comment starting
  `Modelled from the spec:`).

All numeric values are embedded as rationals (`ℚ`) or integers; dates are
day ordinals (`ℕ`).
-/

namespace Irrigation

/-- A value appearing in the AI-model feature dictionary: a string, a
number, or a null.  `null` is included so that "no nulls" is a real
statement about `get_ai_model_input`'s output. -/
inductive FeatureValue where
  | str (s : String)
  | num (q : ℚ)
  | null
  deriving DecidableEq, Repr

/-- The `Field` Django model, restricted to the attributes used by
`crop_days`, `update_soil_moisture` and `get_ai_model_input`:
`crop_type` (CharField), `planting_date` (DateField, nullable),
`current_soil_moisture` (IntegerField, 0-100), `soil_type` (CharField),
`region` (CharField; `region_display` stands for `get_region_display()`),
`current_season` (CharField). -/
structure Field where
  crop_type : String
  planting_date : Option ℕ
  current_soil_moisture : ℤ
  soil_type : String
  region_display : String
  current_season : String
  deriving DecidableEq, Repr

/-- The weather dictionary handed to `get_ai_model_input`.  Each key may
be absent, matching the Python `weather_data.get(key, default)` access
pattern. -/
structure WeatherReading where
  temperature : Option ℚ
  humidity : Option ℚ
  rainfall : Option ℚ
  windspeed : Option ℚ
  deriving DecidableEq, Repr

/-- `Field.crop_days` property: days since planting, `0` when no
planting date is recorded.  `today` is the current date as a day
ordinal; the subtraction is truncated like the source's date delta for
a planting date not after today. -/
def crop_days (f : Field) (today : ℕ) : ℕ :=
  match f.planting_date with
  | some d => today - d
  | none => 0

/-- `Field.update_soil_moisture(moisture_value)`: persists the new value
and returns `True` exactly when `0 <= moisture_value <= 100`, otherwise
leaves the field unchanged and returns `False`.  The pair is the saved
field state together with the returned boolean. -/
def update_soil_moisture (f : Field) (moisture_value : ℤ) : Field × Bool :=
  if 0 ≤ moisture_value ∧ moisture_value ≤ 100 then
    ({ f with current_soil_moisture := moisture_value }, true)
  else
    (f, false)

/-- `Field.get_ai_model_input(weather_data)`: the 10-entry feature
dictionary, in the source's key order.  Absent weather values fall back
to the source's defaults (`temperature` 25, `humidity` 60, `rainfall` 0,
`windspeed` 10) via the `.get` pattern. -/
def get_ai_model_input (f : Field) (weather_data : WeatherReading) (today : ℕ) :
    List (String × FeatureValue) :=
  [ ("CropType", .str f.crop_type),
    ("CropDays", .num (crop_days f today)),
    ("SoilMoisture", .num f.current_soil_moisture),
    ("temperature", .num (weather_data.temperature.getD 25)),
    ("humidity", .num (weather_data.humidity.getD 60)),
    ("rainfall", .num (weather_data.rainfall.getD 0)),
    ("windspeed", .num (weather_data.windspeed.getD 10)),
    ("soilType", .str f.soil_type),
    ("region", .str f.region_display),
    ("season", .str f.current_season) ]

/-- The fixed feature-name contract of the AI model. -/
def featureNames : List String :=
  ["CropType", "CropDays", "SoilMoisture", "temperature", "humidity",
   "rainfall", "windspeed", "soilType", "region", "season"]

/-- Schedule status, drawn from the closed set
`pending, confirmed, completed, skipped, cancelled`. -/
inductive Status where
  | pending | confirmed | completed | skipped | cancelled
  deriving DecidableEq, Repr

/-- `completed`, `skipped` and `cancelled` are the terminal states. -/
def Status.isTerminal : Status → Bool
  | .completed => true
  | .skipped => true
  | .cancelled => true
  | _ => false

/-- Modelled from the spec: the state-machine transition table of the
Schedule Lifecycle Manager — from `pending` only `confirmed`, `skipped`
and `cancelled` are reachable in one transition; from `confirmed` only
`completed`, `skipped` and `cancelled`; terminal states admit no
transition. -/
def transAllowed : Status → Status → Bool
  | .pending, .confirmed => true
  | .pending, .skipped => true
  | .pending, .cancelled => true
  | .confirmed, .completed => true
  | .confirmed, .skipped => true
  | .confirmed, .cancelled => true
  | _, _ => false

/-- Modelled from the spec: the persisted `IrrigationSchedule` entity,
restricted to the attributes the lifecycle claims mention — identity,
owning field, recommended date (a day ordinal) and status. -/
structure Schedule where
  id : ℕ
  fieldId : ℕ
  recommendedDate : ℕ
  status : Status
  deriving DecidableEq, Repr

/-- A schedule is active when its status is non-terminal
(`pending` or `confirmed`). -/
def Schedule.isActive (s : Schedule) : Bool := !s.status.isTerminal

/-- Modelled from the spec: the Lifecycle Manager's backing store — the
persisted schedules plus the next fresh schedule id. -/
structure Store where
  schedules : List Schedule
  nextId : ℕ
  deriving DecidableEq, Repr

/-- Modelled from the spec: the error taxonomy of the lifecycle
operations — `InvalidTransitionError`, `DuplicateActiveScheduleError`
(carrying the existing schedule's id), `NotFoundError`. -/
inductive LcError where
  | invalidTransition
  | duplicateActive (existingId : ℕ)
  | notFound
  deriving DecidableEq, Repr

/-- The lifecycle operations a caller may invoke: `generate`, `confirm`,
`skip`, `complete`, and the PATCH status update. -/
inductive Op where
  | generate (fieldId : ℕ) (date : ℕ)
  | confirm (id : ℕ)
  | skip (id : ℕ)
  | complete (id : ℕ)
  | update (id : ℕ) (target : Status)
  deriving DecidableEq, Repr

/-- Replace the status of one schedule when its id matches. -/
def applyTo (i : ℕ) (target : Status) (s : Schedule) : Schedule :=
  if s.id = i then { s with status := target } else s

/-- Replace the status of the schedule with the given id. -/
def setStatus (l : List Schedule) (i : ℕ) (st : Status) : List Schedule :=
  l.map (applyTo i st)

/-- Look a schedule up by id. -/
def findSched (l : List Schedule) (i : ℕ) : Option Schedule :=
  l.find? fun s => s.id = i

/-- Modelled from the spec: `generate(field, prediction)` — fails with
`DuplicateActiveScheduleError` referencing the existing schedule's id
when an active (non-terminal) schedule already exists for the field,
otherwise creates a fresh schedule in status `pending`. -/
def generate (st : Store) (fieldId date : ℕ) : Except LcError Store :=
  match st.schedules.find? (fun s => s.fieldId = fieldId ∧ s.isActive) with
  | some s => .error (.duplicateActive s.id)
  | none =>
      .ok { schedules :=
              st.schedules ++ [⟨st.nextId, fieldId, date, .pending⟩],
            nextId := st.nextId + 1 }

/-- Modelled from the spec: `confirm(schedule_id)` — legal from
`pending`; calling it on an already-confirmed schedule returns the
current state unchanged (idempotency note of the exposed interface);
from a terminal state it fails with `InvalidTransitionError`. -/
def confirm (st : Store) (i : ℕ) : Except LcError Store :=
  match findSched st.schedules i with
  | none => .error .notFound
  | some s =>
      match s.status with
      | .pending => .ok { st with schedules := setStatus st.schedules i .confirmed }
      | .confirmed => .ok st
      | _ => .error .invalidTransition

/-- Modelled from the spec: `skip(schedule_id)` — legal only from
`pending` or `confirmed`. -/
def skip (st : Store) (i : ℕ) : Except LcError Store :=
  match findSched st.schedules i with
  | none => .error .notFound
  | some s =>
      match s.status with
      | .pending => .ok { st with schedules := setStatus st.schedules i .skipped }
      | .confirmed => .ok { st with schedules := setStatus st.schedules i .skipped }
      | _ => .error .invalidTransition

/-- Modelled from the spec: `complete(schedule_id, history_record)` —
legal only from `confirmed`. -/
def complete (st : Store) (i : ℕ) : Except LcError Store :=
  match findSched st.schedules i with
  | none => .error .notFound
  | some s =>
      match s.status with
      | .confirmed => .ok { st with schedules := setStatus st.schedules i .completed }
      | _ => .error .invalidTransition

/-- Modelled from the spec: the PATCH status update — the requested
target status must be reachable from the current status along the state
machine, otherwise `InvalidTransitionError`. -/
def updateStatus (st : Store) (i : ℕ) (target : Status) : Except LcError Store :=
  match findSched st.schedules i with
  | none => .error .notFound
  | some s =>
      if transAllowed s.status target then
        .ok { st with schedules := setStatus st.schedules i target }
      else
        .error .invalidTransition

/-- Dispatch a lifecycle operation. -/
def applyOp (st : Store) : Op → Except LcError Store
  | .generate fieldId date => generate st fieldId date
  | .confirm i => confirm st i
  | .skip i => skip st i
  | .complete i => complete st i
  | .update i target => updateStatus st i target

/-- Modelled from the spec: the read-time overdue classification — a
schedule is overdue exactly when its status is `pending` or `confirmed`
and its recommended date is strictly before the current date. -/
def isOverdue (s : Schedule) (today : ℕ) : Bool :=
  (s.status = .pending ∨ s.status = .confirmed) ∧ s.recommendedDate < today

/-- Modelled from the spec: `list_overdue` — the schedules reported
overdue by query, computed from stored date and status without mutating
any stored state. -/
def listOverdue (st : Store) (today : ℕ) : List Schedule :=
  st.schedules.filter fun s => isOverdue s today

/-- Number of active schedules a store holds for a field. -/
def activeCount (st : Store) (fieldId : ℕ) : ℕ :=
  st.schedules.countP fun s => s.fieldId = fieldId ∧ s.isActive

/-- The at-most-one-active-schedule-per-field invariant. -/
def atMostOneActive (st : Store) : Prop :=
  ∀ fieldId, activeCount st fieldId ≤ 1

/-- Store well-formedness: schedule ids are unique, as for rows of a
persisted entity keyed by id. -/
def uniqueIds (st : Store) : Prop :=
  (st.schedules.map Schedule.id).Nodup

/-- Modelled from the spec: the prediction view assembled by the
Prediction Adapter — the per-square-meter rate together with the total
volume computed for the field. -/
structure PredictionView where
  water_amount : ℚ
  total_liters : ℚ
  total_m3 : ℚ
  deriving DecidableEq, Repr

/-- Modelled from the spec: the Prediction Adapter's total-volume
computation, performed outside the raw model call —
`total_liters = water_amount * area_hectares * 10000` (1 hectare =
10,000 m²) and `total_m3 = total_liters / 1000`, exposed alongside the
rate. -/
def mkPredictionView (water_amount area_hectares : ℚ) : PredictionView :=
  { water_amount := water_amount,
    total_liters := water_amount * area_hectares * 10000,
    total_m3 := water_amount * area_hectares * 10000 / 1000 }

/-- The priority tiers, ordered `low < medium < high < critical`. -/
inductive Priority where
  | low | medium | high | critical
  deriving DecidableEq, Repr

/-- Severity rank of a tier: `low` 0, `medium` 1, `high` 2,
`critical` 3. -/
def Priority.rank : Priority → ℕ
  | .low => 0
  | .medium => 1
  | .high => 2
  | .critical => 3

/-- Soil-moisture percentage below which the field counts as
water-stressed (the spec's example low threshold). -/
def soilLowThreshold : ℚ := 20

/-- Soil-moisture percentage below which moisture counts as moderate
(documented policy choice). -/
def soilModerateThreshold : ℚ := 40

/-- Predicted water amount at or above which demand counts as high
(documented policy choice); ties break toward the higher tier. -/
def waterHighThreshold : ℚ := 30

/-- Minimal non-zero predicted water amount at or above which a
`medium` tier is assigned (documented policy choice); ties break toward
the higher tier. -/
def waterMinimalThreshold : ℚ := 10

/-- Modelled from the spec: the Priority Classifier's rule table —
`critical`: soil moisture below the low threshold AND water amount at
or above the high threshold; `high`: soil moisture below the moderate
threshold OR water amount at or above the high threshold; `medium`:
water amount at or above the minimal threshold; `low`: otherwise.
Threshold ties break toward the higher-severity tier, so the water
comparisons are inclusive.  `confidence` and `crop_days` are part of
the contract's input but do not affect the tier in the rule table. -/
def classify (water_amount confidence soil_moisture : ℚ) (crop_days : ℕ) : Priority :=
  if soil_moisture < soilLowThreshold ∧ waterHighThreshold ≤ water_amount then
    .critical
  else if soil_moisture < soilModerateThreshold ∨ waterHighThreshold ≤ water_amount then
    .high
  else if waterMinimalThreshold ≤ water_amount then
    .medium
  else
    .low

/-- Modelled from the spec: the Analytics Aggregator's week-over-week
trend — `(recent_week - previous_week) / previous_week * 100`, and
null (`none`) when `previous_week` is zero. -/
def usageTrendPercentage (recent_week previous_week : ℚ) : Option ℚ :=
  if previous_week = 0 then none
  else some ((recent_week - previous_week) / previous_week * 100)

/-- A concrete field used to evaluate the embedded model methods:
Maize planted on day 0, soil moisture 18, Loam, Lusaka, Dry season. -/
def sampleField : Field :=
  { crop_type := "Maize", planting_date := some 0, current_soil_moisture := 18,
    soil_type := "Loam", region_display := "Lusaka", current_season := "Dry" }

/-- A weather reading in which every numeric value is absent. -/
def absentWeather : WeatherReading :=
  { temperature := none, humidity := none, rainfall := none, windspeed := none }

/-- A complete concrete weather reading. -/
def sampleWeather : WeatherReading :=
  { temperature := some 32, humidity := some 30, rainfall := some 0,
    windspeed := some 10 }

/-- A concrete store holding a confirmed schedule (id 1, field 10) and
a completed schedule (id 2, field 11). -/
def sampleStore : Store :=
  { schedules := [⟨1, 10, 100, .confirmed⟩, ⟨2, 11, 100, .completed⟩],
    nextId := 3 }

/-- A concrete store holding a single pending schedule (id 1,
field 10). -/
def pendingStore : Store :=
  { schedules := [⟨1, 10, 100, .pending⟩], nextId := 2 }

/-- `pendingStore` after confirming schedule 1. -/
def pendingStoreConfirmed : Store :=
  { schedules := [⟨1, 10, 100, .confirmed⟩], nextId := 2 }

/-- C10: `update_soil_moisture(moisture_value)` persists the new
moisture value and returns true exactly when
`0 <= moisture_value <= 100`; for any value outside that range it
returns false and leaves the stored `current_soil_moisture` unchanged
(the function is total, so no error is raised). -/
theorem update_soil_moisture_spec (f : Field) (v : ℤ) :
    ((update_soil_moisture f v).2 = true ↔ 0 ≤ v ∧ v ≤ 100) ∧
    (0 ≤ v ∧ v ≤ 100 → (update_soil_moisture f v).1.current_soil_moisture = v) ∧
    (¬(0 ≤ v ∧ v ≤ 100) → update_soil_moisture f v = (f, false)) := by
  unfold update_soil_moisture
  by_cases h : 0 ≤ v ∧ v ≤ 100 <;> simp [h]

/-- Witness for C10 at `v = 55` (in range) and `v = 150` (out of
range). -/
theorem update_soil_moisture_spec_witness :
    (update_soil_moisture sampleField 55).1.current_soil_moisture = 55 ∧
    update_soil_moisture sampleField 150 = (sampleField, false) :=
  ⟨(update_soil_moisture_spec sampleField 55).2.1 (by decide),
   (update_soil_moisture_spec sampleField 150).2.2 (by decide)⟩

/-- C5: `get_ai_model_input` produces a feature vector containing
exactly the 10 named fields `CropType, CropDays, SoilMoisture,
temperature, humidity, rainfall, windspeed, soilType, region, season`,
with no nulls and no other fields, for every field and weather
reading. -/
theorem get_ai_model_input_ten_features (f : Field) (w : WeatherReading) (t : ℕ) :
    (get_ai_model_input f w t).map Prod.fst = featureNames ∧
    (get_ai_model_input f w t).length = 10 ∧
    ∀ p ∈ get_ai_model_input f w t, p.2 ≠ FeatureValue.null := by
  refine ⟨rfl, rfl, ?_⟩
  intro p hp
  simp only [get_ai_model_input, List.mem_cons, List.not_mem_nil, or_false] at hp
  rcases hp with h | h | h | h | h | h | h | h | h | h <;> subst h <;> simp

/-- Witness for C5 at the sample field and weather: the feature names
match the contract and the first feature's value is non-null. -/
theorem get_ai_model_input_ten_features_witness :
    (get_ai_model_input sampleField sampleWeather 45).map Prod.fst = featureNames ∧
    (("CropType", FeatureValue.str "Maize") : String × FeatureValue).2 ≠
      FeatureValue.null :=
  ⟨(get_ai_model_input_ten_features sampleField sampleWeather 45).1,
   (get_ai_model_input_ten_features sampleField sampleWeather 45).2.2 _ (by decide)⟩

/-- C8 counterexample: with every numeric weather value absent,
`get_ai_model_input` does not fail — it substitutes the defaults
(temperature 25, humidity 60, rainfall 0, windspeed 10) and returns the
complete feature vector, contradicting the claim that it fails with
`InvalidWeatherError` without substituting defaults. -/
theorem get_ai_model_input_absent_weather_defaults :
    get_ai_model_input sampleField absentWeather 45 =
      [ ("CropType", .str "Maize"), ("CropDays", .num 45),
        ("SoilMoisture", .num 18), ("temperature", .num 25),
        ("humidity", .num 60), ("rainfall", .num 0),
        ("windspeed", .num 10), ("soilType", .str "Loam"),
        ("region", .str "Lusaka"), ("season", .str "Dry") ] := by
  decide

/-- C8 amended: when a numeric weather value is absent,
`get_ai_model_input` substitutes the source's default (temperature 25,
humidity 60, rainfall 0, windspeed 10) for it and still returns the
complete 10-feature vector; it performs no validation and raises no
error. -/
theorem get_ai_model_input_weather_defaults (f : Field) (w : WeatherReading) (t : ℕ) :
    (get_ai_model_input f w t).map Prod.fst = featureNames ∧
    (get_ai_model_input f w t).get? 3 =
      some ("temperature", .num (w.temperature.getD 25)) ∧
    (get_ai_model_input f w t).get? 4 =
      some ("humidity", .num (w.humidity.getD 60)) ∧
    (get_ai_model_input f w t).get? 5 =
      some ("rainfall", .num (w.rainfall.getD 0)) ∧
    (get_ai_model_input f w t).get? 6 =
      some ("windspeed", .num (w.windspeed.getD 10)) :=
  ⟨rfl, rfl, rfl, rfl, rfl⟩

/-- C4: the total volume exposed alongside the per-square-meter rate
satisfies exactly `total_liters = water_amount * area_hectares * 10000`
and `total_m3 = total_liters / 1000` for every positive area. -/
theorem mkPredictionView_total (w a : ℚ) (ha : 0 < a) :
    (mkPredictionView w a).total_liters = w * a * 10000 ∧
    (mkPredictionView w a).total_m3 = (mkPredictionView w a).total_liters / 1000 :=
  ⟨rfl, rfl⟩

/-- Witness for C4 at rate 4 L/m² over 2.5 hectares. -/
theorem mkPredictionView_total_witness :
    (mkPredictionView 4 (5/2)).total_liters = 4 * (5/2) * 10000 ∧
    (mkPredictionView 4 (5/2)).total_m3 = (mkPredictionView 4 (5/2)).total_liters / 1000 :=
  mkPredictionView_total 4 (5/2) (by norm_num)

/-- C9: the week-over-week trend equals
`(recent_week - previous_week) / previous_week * 100` whenever
`previous_week` is non-zero, and is null whenever `previous_week` is
zero. -/
theorem usageTrendPercentage_spec (r p : ℚ) :
    (p ≠ 0 → usageTrendPercentage r p = some ((r - p) / p * 100)) ∧
    (p = 0 → usageTrendPercentage r p = none) := by
  constructor <;> intro h <;> simp [usageTrendPercentage, h]

/-- Witness for C9 at `recent = 300, previous = 200` and
`recent = 300, previous = 0`. -/
theorem usageTrendPercentage_spec_witness :
    usageTrendPercentage 300 200 = some ((300 - 200) / 200 * 100) ∧
    usageTrendPercentage 300 0 = none :=
  ⟨(usageTrendPercentage_spec 300 200).1 (by norm_num),
   (usageTrendPercentage_spec 300 0).2 rfl⟩

/-- C3: a schedule is reported by `list_overdue` if and only if it is
stored, its status is `pending` or `confirmed`, and its recommended
date is strictly before the current date; the classification is a pure
function of the store and the date, so repeated queries at the same
time agree. -/
theorem listOverdue_iff (st : Store) (today : ℕ) (s : Schedule) :
    s ∈ listOverdue st today ↔
      s ∈ st.schedules ∧
        (s.status = .pending ∨ s.status = .confirmed) ∧
        s.recommendedDate < today := by
  simp [listOverdue, List.mem_filter, isOverdue, and_assoc]

/-- The severity rank of `classify`, written as a nested conditional on
the raw inputs. -/
lemma rank_classify (w c sm : ℚ) (cd : ℕ) :
    (classify w c sm cd).rank =
      if sm < 20 then (if 30 ≤ w then 3 else 2)
      else if sm < 40 then 2
      else if 30 ≤ w then 2
      else if 10 ≤ w then 1
      else 0 := by
  unfold classify soilLowThreshold soilModerateThreshold
    waterHighThreshold waterMinimalThreshold
  split_ifs <;> simp_all [Priority.rank] <;> linarith

/-- C6: the tier assigned by `classify` is monotone in the predicted
water amount when confidence, soil moisture and crop days are held
fixed, and water-threshold ties break toward the higher-severity
tier (the boundary values `waterHighThreshold` and
`waterMinimalThreshold` already receive `high`, resp. `medium`, and
`critical` when the soil is water-stressed). -/
theorem classify_monotone_in_water (w₁ w₂ c sm : ℚ) (cd : ℕ) (h : w₂ ≤ w₁) :
    (classify w₂ c sm cd).rank ≤ (classify w₁ c sm cd).rank ∧
    (soilModerateThreshold ≤ sm →
      classify waterHighThreshold c sm cd = .high ∧
      classify waterMinimalThreshold c sm cd = .medium) ∧
    (sm < soilLowThreshold →
      classify waterHighThreshold c sm cd = .critical) := by
  refine ⟨?_, ?_, ?_⟩
  · rw [rank_classify, rank_classify]
    split_ifs <;> linarith
  · intro hsm
    unfold classify soilLowThreshold soilModerateThreshold
      waterHighThreshold waterMinimalThreshold at *
    have hn20 : ¬ sm < 20 := by linarith
    have hn40 : ¬ sm < 40 := by linarith
    constructor
    · rw [if_neg fun hc => hn20 hc.1, if_pos (Or.inr (le_refl (30 : ℚ)))]
    · rw [if_neg fun hc => hn20 hc.1,
        if_neg fun hc => hc.elim hn40 (by norm_num),
        if_pos (le_refl (10 : ℚ))]
  · intro hsm
    unfold classify soilLowThreshold waterHighThreshold at *
    rw [if_pos ⟨hsm, le_refl (30 : ℚ)⟩]

/-- Witness for C6 at concrete inputs: amounts 15 ≤ 35 with soil
moisture 50, the water-threshold boundary values at soil moisture 50,
and the high boundary at soil moisture 15. -/
theorem classify_monotone_in_water_witness :
    (classify 15 (4/5) 50 45).rank ≤ (classify 35 (4/5) 50 45).rank ∧
    (classify waterHighThreshold (4/5) 50 45 = .high ∧
      classify waterMinimalThreshold (4/5) 50 45 = .medium) ∧
    classify waterHighThreshold (4/5) 15 45 = .critical :=
  ⟨(classify_monotone_in_water 35 15 (4/5) 50 45 (by norm_num)).1,
   (classify_monotone_in_water 35 15 (4/5) 50 45 (by norm_num)).2.1
     (by norm_num [soilModerateThreshold]),
   (classify_monotone_in_water 35 15 (4/5) 15 45 (by norm_num)).2.2
     (by norm_num [soilLowThreshold])⟩

/-- C7: calling `confirm` on a schedule that is already `confirmed`
returns the current state unchanged without error, while calling it on
a schedule in a terminal status returns `InvalidTransitionError`. -/
theorem confirm_idempotent_from_confirmed :
    (∀ (st : Store) (i : ℕ) (s : Schedule),
        findSched st.schedules i = some s → s.status = .confirmed →
        confirm st i = .ok st) ∧
    (∀ (st : Store) (i : ℕ) (s : Schedule),
        findSched st.schedules i = some s → s.status.isTerminal = true →
        confirm st i = .error .invalidTransition) := by
  constructor
  · intro st i s hf hs
    simp only [confirm, hf, hs]
  · intro st i s hf hs
    cases hstat : s.status <;>
      simp_all [confirm, Status.isTerminal]

/-- Witness for C7 on `sampleStore`: a second confirm of the confirmed
schedule 1 returns the store unchanged, and confirming the completed
schedule 2 errors. -/
theorem confirm_idempotent_from_confirmed_witness :
    confirm sampleStore 1 = .ok sampleStore ∧
    confirm sampleStore 2 = .error .invalidTransition :=
  ⟨confirm_idempotent_from_confirmed.1 sampleStore 1 ⟨1, 10, 100, .confirmed⟩ rfl rfl,
   confirm_idempotent_from_confirmed.2 sampleStore 2 ⟨2, 11, 100, .completed⟩ rfl rfl⟩

/-- `applyTo` does not change the schedule id. -/
lemma applyTo_id (i : ℕ) (target : Status) (s : Schedule) :
    (applyTo i target s).id = s.id := by
  unfold applyTo; split_ifs <;> rfl

/-- `applyTo` does not change the owning field. -/
lemma applyTo_fieldId (i : ℕ) (target : Status) (s : Schedule) :
    (applyTo i target s).fieldId = s.fieldId := by
  unfold applyTo; split_ifs <;> rfl

/-- Looking a schedule up after `setStatus` finds the previously found
schedule, with `applyTo` applied. -/
lemma findSched_setStatus (l : List Schedule) (i j : ℕ) (target : Status) :
    findSched (setStatus l i target) j =
      (findSched l j).map (applyTo i target) := by
  unfold findSched setStatus
  rw [List.find?_map]
  have hfun : ((fun s : Schedule => decide (s.id = j)) ∘ applyTo i target) =
      (fun s : Schedule => decide (s.id = j)) := by
    funext s
    simp [Function.comp, applyTo_id]
  rw [hfun]

/-- The schedule found by `findSched` carries the requested id. -/
lemma findSched_some_id {l : List Schedule} {i : ℕ} {s : Schedule}
    (h : findSched l i = some s) : s.id = i := by
  have := List.find?_some h
  simpa using this

/-- Appending new schedules does not change what an existing lookup
finds. -/
lemma findSched_append_of_some {l₁ l₂ : List Schedule} {i : ℕ} {s : Schedule}
    (h : findSched l₁ i = some s) : findSched (l₁ ++ l₂) i = some s := by
  unfold findSched at *
  rw [List.find?_append, h]
  rfl

/-- With unique ids, any stored schedule carrying the looked-up id is
the schedule the lookup finds. -/
lemma eq_of_findSched {l : List Schedule} {i : ℕ} {s₀ x : Schedule}
    (huniq : (l.map Schedule.id).Nodup)
    (hfind : findSched l i = some s₀) (hx : x ∈ l) (hxi : x.id = i) :
    x = s₀ := by
  have hmem : s₀ ∈ l := List.mem_of_find?_eq_some hfind
  exact List.inj_on_of_nodup_map huniq hx hmem
    (by rw [hxi, findSched_some_id hfind])

/-- Every transition the state machine allows starts in a non-terminal
state. -/
lemma transAllowed_src_nonterminal :
    ∀ a b, transAllowed a b = true → a.isTerminal = false := by
  intro a b
  cases a <;> cases b <;> decide

/-- No transition the state machine allows enters `pending`. -/
lemma transAllowed_not_pending :
    ∀ a b, transAllowed a b = true → b ≠ .pending := by
  intro a b
  cases a <;> cases b <;> decide

/-- After a legal single-schedule transition, any schedule found by id
either is untouched or moved along the state machine, and never moved
back to `pending`. -/
lemma step_ok (st : Store) (i j : ℕ) (target : Status) (s s₀ s' : Schedule)
    (hfind : findSched st.schedules i = some s₀)
    (htr : transAllowed s₀.status target = true)
    (hs : findSched st.schedules j = some s)
    (hs' : findSched (setStatus st.schedules i target) j = some s') :
    (s'.status = s.status ∨ transAllowed s.status s'.status = true) ∧
      (s.status ≠ .pending → s'.status ≠ .pending) := by
  rw [findSched_setStatus, hs] at hs'
  have hs'eq : applyTo i target s = s' := by
    simpa using hs'
  by_cases hij : s.id = i
  · have hsj : s.id = j := findSched_some_id hs
    have hji : j = i := by rw [← hsj, hij]
    have hss₀ : s = s₀ := by
      rw [hji] at hs
      rw [hs] at hfind
      exact Option.some.inj hfind
    have hstat' : s'.status = target := by
      rw [← hs'eq]
      unfold applyTo
      rw [if_pos hij]
    constructor
    · right
      rw [hstat', hss₀]
      exact htr
    · intro _
      rw [hstat']
      exact transAllowed_not_pending _ _ htr
  · have hstat' : s' = s := by
      rw [← hs'eq]
      unfold applyTo
      rw [if_neg hij]
    rw [hstat']
    exact ⟨Or.inl rfl, fun h => h⟩

/-- C1: every successful lifecycle operation (generate, confirm, skip,
complete, status update) moves each stored schedule's status only along
the state machine encoded by `transAllowed` — from `pending` only to
`confirmed`, `skipped` or `cancelled`, from `confirmed` only to
`completed`, `skipped` or `cancelled` — and never back to `pending`
once it has left `pending`; on a schedule whose status is terminal
(`completed`, `skipped`, `cancelled`) every transition attempt returns
`InvalidTransitionError`. -/
theorem schedule_state_machine :
    (∀ (st : Store) (op : Op) (st' : Store) (j : ℕ) (s s' : Schedule),
        applyOp st op = .ok st' →
        findSched st.schedules j = some s →
        findSched st'.schedules j = some s' →
        (s'.status = s.status ∨ transAllowed s.status s'.status = true) ∧
          (s.status ≠ .pending → s'.status ≠ .pending)) ∧
    (∀ (st : Store) (j : ℕ) (s : Schedule),
        findSched st.schedules j = some s → s.status.isTerminal = true →
        confirm st j = .error .invalidTransition ∧
        skip st j = .error .invalidTransition ∧
        complete st j = .error .invalidTransition ∧
        ∀ target, updateStatus st j target = .error .invalidTransition) := by
  constructor
  · intro st op st' j s s' hok hs hs'
    cases op with
    | generate fieldId date =>
        simp only [applyOp, generate] at hok
        cases hfind : st.schedules.find? (fun x => x.fieldId = fieldId ∧ x.isActive) with
        | some s₀ => rw [hfind] at hok; simp at hok
        | none =>
            rw [hfind] at hok
            injection hok with h
            subst h
            rw [findSched_append_of_some hs] at hs'
            injection hs' with h₂
            subst h₂
            exact ⟨Or.inl rfl, fun h => h⟩
    | confirm i =>
        simp only [applyOp, confirm] at hok
        cases hfind : findSched st.schedules i with
        | none => rw [hfind] at hok; simp at hok
        | some s₀ =>
            rw [hfind] at hok
            simp only [] at hok
            cases hstat : s₀.status with
            | pending =>
                rw [hstat] at hok
                injection hok with h
                subst h
                exact step_ok st i j .confirmed s s₀ s' hfind (by rw [hstat]; rfl) hs hs'
            | confirmed =>
                rw [hstat] at hok
                injection hok with h
                subst h
                rw [hs] at hs'
                injection hs' with h₂
                subst h₂
                exact ⟨Or.inl rfl, fun h => h⟩
            | completed => rw [hstat] at hok; simp at hok
            | skipped => rw [hstat] at hok; simp at hok
            | cancelled => rw [hstat] at hok; simp at hok
    | skip i =>
        simp only [applyOp, skip] at hok
        cases hfind : findSched st.schedules i with
        | none => rw [hfind] at hok; simp at hok
        | some s₀ =>
            rw [hfind] at hok
            simp only [] at hok
            cases hstat : s₀.status with
            | pending =>
                rw [hstat] at hok
                injection hok with h
                subst h
                exact step_ok st i j .skipped s s₀ s' hfind (by rw [hstat]; rfl) hs hs'
            | confirmed =>
                rw [hstat] at hok
                injection hok with h
                subst h
                exact step_ok st i j .skipped s s₀ s' hfind (by rw [hstat]; rfl) hs hs'
            | completed => rw [hstat] at hok; simp at hok
            | skipped => rw [hstat] at hok; simp at hok
            | cancelled => rw [hstat] at hok; simp at hok
    | complete i =>
        simp only [applyOp, complete] at hok
        cases hfind : findSched st.schedules i with
        | none => rw [hfind] at hok; simp at hok
        | some s₀ =>
            rw [hfind] at hok
            simp only [] at hok
            cases hstat : s₀.status with
            | confirmed =>
                rw [hstat] at hok
                injection hok with h
                subst h
                exact step_ok st i j .completed s s₀ s' hfind (by rw [hstat]; rfl) hs hs'
            | pending => rw [hstat] at hok; simp at hok
            | completed => rw [hstat] at hok; simp at hok
            | skipped => rw [hstat] at hok; simp at hok
            | cancelled => rw [hstat] at hok; simp at hok
    | update i target =>
        simp only [applyOp, updateStatus] at hok
        cases hfind : findSched st.schedules i with
        | none => rw [hfind] at hok; simp at hok
        | some s₀ =>
            rw [hfind] at hok
            simp only [] at hok
            by_cases htr : transAllowed s₀.status target = true
            · rw [if_pos htr] at hok
              injection hok with h
              subst h
              exact step_ok st i j target s s₀ s' hfind htr hs hs'
            · rw [if_neg htr] at hok
              simp at hok
  · intro st j s hf hs
    have hterm : s.status = .completed ∨ s.status = .skipped ∨ s.status = .cancelled := by
      cases hstat : s.status <;> simp_all [Status.isTerminal]
    refine ⟨?_, ?_, ?_, ?_⟩
    · rcases hterm with h | h | h <;> simp [confirm, hf, h]
    · rcases hterm with h | h | h <;> simp [skip, hf, h]
    · rcases hterm with h | h | h <;> simp [complete, hf, h]
    · intro target
      rcases hterm with h | h | h <;> cases target <;>
        simp [updateStatus, hf, h, transAllowed]

/-- Witness for C1: confirming the pending schedule of `pendingStore`
moves it from `pending` to `confirmed`, an allowed transition; and on
`sampleStore` every transition attempt on the completed schedule 2
errors. -/
theorem schedule_state_machine_witness :
    ((Schedule.mk 1 10 100 .confirmed).status = (Schedule.mk 1 10 100 .pending).status ∨
      transAllowed (Schedule.mk 1 10 100 .pending).status
        (Schedule.mk 1 10 100 .confirmed).status = true) ∧
    skip sampleStore 2 = .error .invalidTransition :=
  ⟨(schedule_state_machine.1 pendingStore (.confirm 1) pendingStoreConfirmed 1
      ⟨1, 10, 100, .pending⟩ ⟨1, 10, 100, .confirmed⟩ rfl rfl rfl).1,
   (schedule_state_machine.2 sampleStore 2 ⟨2, 11, 100, .completed⟩ rfl rfl).2.1⟩

/-- A legal single-schedule transition does not increase the number of
active schedules a field has (the touched schedule was active and either
stays active or leaves the active set). -/
lemma countP_active_setStatus_le (l : List Schedule) (i : ℕ) (target : Status)
    (s₀ : Schedule) (fid : ℕ)
    (huniq : (l.map Schedule.id).Nodup)
    (hfind : findSched l i = some s₀)
    (htr : transAllowed s₀.status target = true) :
    (setStatus l i target).countP (fun s => s.fieldId = fid ∧ s.isActive) ≤
      l.countP (fun s => s.fieldId = fid ∧ s.isActive) := by
  unfold setStatus
  rw [List.countP_map]
  apply List.countP_mono_left
  intro x hx hpx
  simp only [Function.comp] at hpx
  by_cases hxi : x.id = i
  · have hxs : x = s₀ := eq_of_findSched huniq hfind hx hxi
    have hact : x.isActive = true := by
      unfold Schedule.isActive
      rw [hxs, transAllowed_src_nonterminal _ _ htr]
      rfl
    simp only [decide_eq_true_eq] at hpx ⊢
    refine ⟨?_, by rw [hact]⟩
    rw [← applyTo_fieldId i target x]
    exact hpx.1
  · unfold applyTo at hpx
    rw [if_neg hxi] at hpx
    exact hpx

/-- C2: generation on a field that already has an active (non-terminal)
schedule fails with `DuplicateActiveScheduleError` referencing the
existing schedule's id (so no second schedule is created), and the
at-most-one-active-schedule-per-field invariant is preserved by every
successful lifecycle operation on a well-formed store. -/
theorem at_most_one_active_per_field :
    (∀ (st : Store) (fieldId date : ℕ) (s : Schedule),
        st.schedules.find? (fun x => x.fieldId = fieldId ∧ x.isActive) = some s →
        generate st fieldId date = .error (.duplicateActive s.id)) ∧
    (∀ (st : Store) (op : Op) (st' : Store),
        atMostOneActive st → uniqueIds st → applyOp st op = .ok st' →
        atMostOneActive st') := by
  constructor
  · intro st fieldId date s hfind
    unfold generate
    rw [hfind]
  · intro st op st' hamo huniq hok
    cases op with
    | generate fieldId date =>
        simp only [applyOp, generate] at hok
        cases hfind : st.schedules.find? (fun x => x.fieldId = fieldId ∧ x.isActive) with
        | some s₀ => rw [hfind] at hok; simp at hok
        | none =>
            rw [hfind] at hok
            injection hok with h
            subst h
            intro fid
            unfold activeCount
            rw [List.countP_append]
            by_cases hf : fieldId = fid
            · subst hf
              have hz : st.schedules.countP
                  (fun x => x.fieldId = fieldId ∧ x.isActive) = 0 := by
                rw [List.countP_eq_zero]
                intro a ha
                exact List.find?_eq_none.mp hfind a ha
              rw [hz]
              simp [List.countP_cons, Schedule.isActive, Status.isTerminal]
            · have hz₂ : List.countP (fun s : Schedule => s.fieldId = fid ∧ s.isActive)
                  [⟨st.nextId, fieldId, date, .pending⟩] = 0 := by
                simp [List.countP_cons, hf]
              rw [hz₂]
              simpa [activeCount] using hamo fid
    | confirm i =>
        simp only [applyOp, confirm] at hok
        cases hfind : findSched st.schedules i with
        | none => rw [hfind] at hok; simp at hok
        | some s₀ =>
            rw [hfind] at hok
            simp only [] at hok
            cases hstat : s₀.status with
            | pending =>
                rw [hstat] at hok
                injection hok with h
                subst h
                intro fid
                exact le_trans
                  (countP_active_setStatus_le st.schedules i .confirmed s₀ fid
                    huniq hfind (by rw [hstat]; rfl))
                  (hamo fid)
            | confirmed =>
                rw [hstat] at hok
                injection hok with h
                subst h
                exact hamo
            | completed => rw [hstat] at hok; simp at hok
            | skipped => rw [hstat] at hok; simp at hok
            | cancelled => rw [hstat] at hok; simp at hok
    | skip i =>
        simp only [applyOp, skip] at hok
        cases hfind : findSched st.schedules i with
        | none => rw [hfind] at hok; simp at hok
        | some s₀ =>
            rw [hfind] at hok
            simp only [] at hok
            cases hstat : s₀.status with
            | pending =>
                rw [hstat] at hok
                injection hok with h
                subst h
                intro fid
                exact le_trans
                  (countP_active_setStatus_le st.schedules i .skipped s₀ fid
                    huniq hfind (by rw [hstat]; rfl))
                  (hamo fid)
            | confirmed =>
                rw [hstat] at hok
                injection hok with h
                subst h
                intro fid
                exact le_trans
                  (countP_active_setStatus_le st.schedules i .skipped s₀ fid
                    huniq hfind (by rw [hstat]; rfl))
                  (hamo fid)
            | completed => rw [hstat] at hok; simp at hok
            | skipped => rw [hstat] at hok; simp at hok
            | cancelled => rw [hstat] at hok; simp at hok
    | complete i =>
        simp only [applyOp, complete] at hok
        cases hfind : findSched st.schedules i with
        | none => rw [hfind] at hok; simp at hok
        | some s₀ =>
            rw [hfind] at hok
            simp only [] at hok
            cases hstat : s₀.status with
            | confirmed =>
                rw [hstat] at hok
                injection hok with h
                subst h
                intro fid
                exact le_trans
                  (countP_active_setStatus_le st.schedules i .completed s₀ fid
                    huniq hfind (by rw [hstat]; rfl))
                  (hamo fid)
            | pending => rw [hstat] at hok; simp at hok
            | completed => rw [hstat] at hok; simp at hok
            | skipped => rw [hstat] at hok; simp at hok
            | cancelled => rw [hstat] at hok; simp at hok
    | update i target =>
        simp only [applyOp, updateStatus] at hok
        cases hfind : findSched st.schedules i with
        | none => rw [hfind] at hok; simp at hok
        | some s₀ =>
            rw [hfind] at hok
            simp only [] at hok
            by_cases htr : transAllowed s₀.status target = true
            · rw [if_pos htr] at hok
              injection hok with h
              subst h
              intro fid
              exact le_trans
                (countP_active_setStatus_le st.schedules i target s₀ fid
                  huniq hfind htr)
                (hamo fid)
            · rw [if_neg htr] at hok
              simp at hok

/-- Witness for C2: generating a second schedule for field 10 on
`sampleStore` (whose schedule 1 is still active) errors with the
existing id, and confirming the pending schedule of `pendingStore`
keeps at most one active schedule for field 10. -/
theorem at_most_one_active_per_field_witness :
    generate sampleStore 10 200 = .error (.duplicateActive 1) ∧
    activeCount pendingStoreConfirmed 10 ≤ 1 :=
  ⟨at_most_one_active_per_field.1 sampleStore 10 200 ⟨1, 10, 100, .confirmed⟩ rfl,
   at_most_one_active_per_field.2 pendingStore (.confirm 1) pendingStoreConfirmed
     (by intro fid; simp [activeCount, pendingStore, List.countP_cons]; split_ifs <;> simp)
     (by simp [uniqueIds, pendingStore])
     rfl 10⟩

end Irrigation
